import Mathlib

/-
Verification development for the `blockchain_workshop_oct_16` repository: a
shallow embedding of the account ledger, transactions, blocks and the
blockchain orchestrator from `src/types/*.rs` and `src/utils.rs`, followed by
theorems about the embedded operations.

Modelling conventions:
  * `u128` / `u64` values are natural numbers; arithmetic that can overflow is
    taken with an explicit `% 2 ^ 128` at the spot the machine operation sits.
  * The Blake2s digest is abstracted as a parameter `H : String → String`
    applied to the exact byte stream the Rust code feeds a `Blake2s` hasher
    (`hasher.update` calls concatenate, which Blake2s treats as one stream).
    The streams themselves (Rust `format!("{:?}", ..)` debug encodings) are
    embedded faithfully.
  * Ed25519 signature checking is abstracted as an oracle parameter
    `sigV : PublicKeyBytes → String → SignatureBytes → Bool`, standing for
    `PublicKey::from_bytes` + `Verifier::verify` on the transaction hash.
  * Fallible Rust code (`panic!`, slice out of range, `unwrap`) is embedded
    with `Option`, `none` meaning the call does not return normally.
-/

namespace Workshop

/-- Rust `type Hash = String` (`src/types/mod.rs`). -/
abbrev Hash := String

/-- Rust `type AccountId = String`. -/
abbrev AccountId := String

/-- Rust `type Error = String`. -/
abbrev Error := String

/-- Rust `type Balance = u128`, modelled as `Nat`; overflowing operations take
an explicit `% 2 ^ 128`. -/
abbrev Balance := Nat

/-- Modulus of `u128` arithmetic. -/
def balanceMod : Nat := 2 ^ 128

/-- Rust `type PublicKeyBytes = [u8; 32]`, modelled as the list of byte
values. -/
abbrev PublicKeyBytes := List Nat

/-- Rust `type SignatureBytes = [u8; 64]`, modelled as the list of byte
values. -/
abbrev SignatureBytes := List Nat

/-- Rust `const MAX_TARGET: Bits = 0x1effffff` (`src/types/mod.rs`). -/
def MAX_TARGET : Int := 0x1effffff

/-- Rust `const EXPECTED_TIME: i32 = 4` (`src/types/mod.rs`). -/
def EXPECTED_TIME : Int := 4

/-- Rust `enum AccountType` (`src/types/account.rs`). -/
inductive AccountType where
  | User
  | Contract
deriving DecidableEq, Repr

/-- Rust `struct Account` (`src/types/account.rs`). -/
structure Account where
  account_type : AccountType
  balance : Balance
  public_key : PublicKeyBytes
deriving DecidableEq, Repr

/-- Rust `Account::new`: zero balance, given type and key. -/
def Account.new (account_type : AccountType) (public_key : PublicKeyBytes) :
    Account :=
  { account_type := account_type, balance := 0, public_key := public_key }

/-- Rust `enum TransactionData` (`src/types/transaction.rs`). -/
inductive TransactionData where
  | CreateAccount (id : AccountId) (pk : PublicKeyBytes)
  | MintInitialSupply (to_ : AccountId) (amount : Balance)
  | Transfer (to_ : AccountId) (amount : Balance)
deriving DecidableEq, Repr

/-- One character of Rust `str` debug escaping (`escape_debug`): the escapes
relevant to the ASCII account ids and hex hashes the program builds. -/
def escapeDebugChar (c : Char) : String :=
  if c = '"' then "\\\""
  else if c = '\\' then "\\\\"
  else if c = '\n' then "\\n"
  else if c = '\t' then "\\t"
  else if c = '\r' then "\\r"
  else String.singleton c

/-- Rust `Debug` rendering of a `String`: quoted and escaped. -/
def debugStr (s : String) : String :=
  "\"" ++ String.join (s.data.map escapeDebugChar) ++ "\""

/-- Rust `Debug` rendering of an `Option<String>`. -/
def debugOptStr : Option String → String
  | none => "None"
  | some s => "Some(" ++ debugStr s ++ ")"

/-- Rust `Debug` rendering of a byte array `[u8; N]`. -/
def debugBytes (bs : List Nat) : String :=
  "[" ++ String.intercalate ", " (bs.map toString) ++ "]"

/-- Rust derived `Debug` rendering of `TransactionData`. -/
def TransactionData.debugFmt : TransactionData → String
  | .CreateAccount id pk =>
      "CreateAccount(" ++ debugStr id ++ ", " ++ debugBytes pk ++ ")"
  | .MintInitialSupply to_ amount =>
      "MintInitialSupply \x7b to: " ++ debugStr to_ ++ ", amount: " ++
        toString amount ++ " \x7d"
  | .Transfer to_ amount =>
      "Transfer \x7b to: " ++ debugStr to_ ++ ", amount: " ++
        toString amount ++ " \x7d"

/-- Rust `struct Transaction` (`src/types/transaction.rs`); the Rust field
`from` is named `from_` because `from` is a Lean keyword. -/
structure Transaction where
  nonce : Nat
  timestamp : Nat
  from_ : Option AccountId
  data : TransactionData
  signature : Option SignatureBytes
deriving DecidableEq, Repr

/-- Rust `Transaction::new`: zero nonce and timestamp, no signature. -/
def Transaction.new (data : TransactionData) (from_ : Option AccountId) :
    Transaction :=
  { nonce := 0, timestamp := 0, from_ := from_, data := data,
    signature := none }

/-- Rust `Transaction::set_sign`. -/
def Transaction.set_sign (tx : Transaction) (signature : SignatureBytes) :
    Transaction :=
  { tx with signature := some signature }

/-- Rust `impl Hashable for Transaction`: the digest `H` of the debug
encoding of `(nonce, timestamp, from, data)`. -/
def Transaction.hash (H : String → String) (tx : Transaction) : Hash :=
  H ("(" ++ toString tx.nonce ++ ", " ++ toString tx.timestamp ++ ", " ++
    debugOptStr tx.from_ ++ ", " ++ tx.data.debugFmt ++ ")")

/-- The account map of the `Blockchain` (Rust `HashMap<AccountId, Account>`),
modelled as an association list with unique keys; insertion order is
deterministic so ledger equality is list equality. -/
abbrev Ledger := List (AccountId × Account)

/-- Rust `HashMap::get` / `WorldState::get_account_by_id`. -/
def Ledger.get_account_by_id : Ledger → AccountId → Option Account
  | [], _ => none
  | (k, a) :: rest, id => if k = id then some a else Ledger.get_account_by_id rest id

/-- A mutation through Rust `WorldState::get_account_by_id_mut`: apply `f` to
the entry at `id`, if present. -/
def Ledger.updateAccount : Ledger → AccountId → (Account → Account) → Ledger
  | [], _, _ => []
  | (k, a) :: rest, id, f =>
      if k = id then (k, f a) :: rest else (k, a) :: Ledger.updateAccount rest id f

/-- Rust `WorldState::create_account` for `Blockchain`
(`src/types/blockchain.rs`): occupied entry is an error, vacant entry gets a
fresh zero-balance account. -/
def Ledger.create_account (l : Ledger) (account_id : AccountId)
    (account_type : AccountType) (public_key : PublicKeyBytes) :
    Except Error Ledger :=
  match Ledger.get_account_by_id l account_id with
  | some _ => .error ("AccountId already exist: " ++ account_id)
  | none => .ok (l ++ [(account_id, Account.new account_type public_key)])

/-- Rust `u128::checked_add`. -/
def checked_add (a b : Nat) : Option Nat :=
  if a + b < balanceMod then some (a + b) else none

/-- Rust `Transaction::verify` (`src/types/transaction.rs`): a missing
signature never verifies; a present signature is passed to the external
Ed25519 oracle `sigV` together with the sender's stored public key and the
transaction's content hash. -/
def Transaction.verify (H : String → String)
    (sigV : PublicKeyBytes → String → SignatureBytes → Bool)
    (tx : Transaction) (sender : Account) : Bool :=
  match tx.signature with
  | some sig => sigV sender.public_key (tx.hash H) sig
  | none => false

/-- Rust `Transaction::execute` (`src/types/transaction.rs`), with the ledger
(the only state the `WorldState` methods touch) passed explicitly. The
`MintInitialSupply` credit is the unchecked Rust `+=`, embedded as addition
modulo `2 ^ 128`; the `Transfer` arm follows the source's check order and its
re-lookup of sender and receiver before each write. -/
def Transaction.execute (H : String → String)
    (sigV : PublicKeyBytes → String → SignatureBytes → Bool)
    (tx : Transaction) (state : Ledger) (is_genesis : Bool) :
    Except Error Ledger :=
  match tx.data with
  | .CreateAccount account_id public_key =>
      state.create_account account_id .User public_key
  | .MintInitialSupply to_ amount =>
      if !is_genesis then
        .error "Initial supply can be minted only in genesis block."
      else
        match Ledger.get_account_by_id state to_ with
        | some _ =>
            .ok (Ledger.updateAccount state to_
              (fun a => { a with balance := (a.balance + amount) % balanceMod }))
        | none => .error "Invalid account."
  | .Transfer to_ amount =>
      match tx.from_ with
      | none => .error "Invalid sender account id."
      | some from_ =>
          if from_ = to_ then .error "Transfer to yourself."
          else
            match Ledger.get_account_by_id state from_ with
            | none => .error "Invalid sender account."
            | some sender =>
                match Ledger.get_account_by_id state to_ with
                | none => .error "Invalid receiver account."
                | some receiver =>
                    if sender.balance < amount then
                      .error "Sender doesn't have enough currency."
                    else if !tx.verify H sigV sender then
                      .error "Signature invalid."
                    else
                      match checked_add receiver.balance amount with
                      | none => .error "Transfer amount overflow."
                      | some balance =>
                          match Ledger.get_account_by_id state from_ with
                          | none => .error "Invalid sender account."
                          | some _ =>
                              let state1 := Ledger.updateAccount state from_
                                (fun s => { s with balance := s.balance - amount })
                              match Ledger.get_account_by_id state1 to_ with
                              | none => .error "Invalid receiver account."
                              | some _ =>
                                  .ok (Ledger.updateAccount state1 to_
                                    (fun r => { r with balance := balance }))

/-- Rust `struct Block` (`src/types/block.rs`); `hash` is the stored (cached)
self-hash, an `Option` exactly as in the source. -/
structure Block where
  nonce : Nat
  timestamp : Nat
  hash : Option Hash
  prev_hash : Option Hash
  transactions : List Transaction
deriving DecidableEq, Repr

/-- The byte stream Rust `impl Hashable for Block` feeds the hasher: the debug
encoding of `(prev_hash, nonce)` followed by each transaction's hash, in
order. -/
def Block.contentString (H : String → String) (b : Block) : String :=
  "(" ++ debugOptStr b.prev_hash ++ ", " ++ toString b.nonce ++ ")" ++
    String.join (b.transactions.map (Transaction.hash H))

/-- Rust `Block::hash()` (the `Hashable` impl): digest of the content
stream. -/
def Block.computeHash (H : String → String) (b : Block) : Hash :=
  H (b.contentString H)

/-- Rust `Block::update_hash`: store the recomputed self-hash. -/
def Block.update_hash (H : String → String) (b : Block) : Block :=
  { b with hash := some (b.computeHash H) }

/-- Rust `Block::new`: given previous hash and the current clock reading
(`get_timestamp()`, passed in as `ts`), zero nonce, no transactions, and the
initial self-hash. -/
def Block.new (H : String → String) (prev_hash : Option Hash) (ts : Nat) :
    Block :=
  Block.update_hash H
    { nonce := 0, timestamp := ts, hash := none, prev_hash := prev_hash,
      transactions := [] }

/-- Rust `Block::set_nonce`: set the nonce, then recompute the self-hash. -/
def Block.set_nonce (H : String → String) (b : Block) (nonce : Nat) : Block :=
  Block.update_hash H { b with nonce := nonce }

/-- Rust `Block::add_transaction`: push the transaction, then recompute the
self-hash. -/
def Block.add_transaction (H : String → String) (b : Block)
    (transaction : Transaction) : Block :=
  Block.update_hash H { b with transactions := b.transactions ++ [transaction] }

/-- Rust `Block::verify`: true iff the stored hash is present and equals the
recomputed content hash. -/
def Block.verify (H : String → String) (b : Block) : Bool :=
  match b.hash with
  | some h => h == b.computeHash H
  | none => false

/-- Rust `struct Blockchain` (`src/types/blockchain.rs`). Modelled from the
spec: the `Chain<T>` container (src/types/chain.rs is not among the provided
sources) is an append-only sequence whose `head` is the most recently
appended block; `Blockchain::validate` and the repository's tests
(`test_validate` reaches the genesis block as the third item of `iter_mut`)
iterate it newest-to-oldest, so it is a list with the newest block first,
`append` consing at the front. -/
structure Blockchain where
  blocks : List Block
  accounts : Ledger
  transaction_pool : List Transaction
deriving DecidableEq, Repr

/-- Rust `Blockchain::new` (`Default`): everything empty. -/
def Blockchain.new : Blockchain :=
  { blocks := [], accounts := [], transaction_pool := [] }

/-- Rust `Blockchain::get_last_block_hash`: the head block's recomputed
hash (`block.hash()`, not the stored field). -/
def Blockchain.get_last_block_hash (H : String → String) (bc : Blockchain) :
    Option Hash :=
  bc.blocks.head?.map (Block.computeHash H)

/-- The transaction loop of Rust `Blockchain::append_block`: execute each
transaction in order against the live ledger, stopping at the first error. -/
def executeAll (H : String → String)
    (sigV : PublicKeyBytes → String → SignatureBytes → Bool) :
    List Transaction → Ledger → Bool → Except Error Ledger
  | [], l, _ => .ok l
  | tx :: rest, l, is_genesis =>
      match tx.execute H sigV l is_genesis with
      | .error e => .error e
      | .ok l1 => executeAll H sigV rest l1 is_genesis

/-- Rust `Blockchain::append_block`: verify the block's self-hash, reject
empty blocks, snapshot the ledger, run the transactions, restore the snapshot
and wrap the error on the first failure, otherwise append the block. The
source contains no difficulty retargeting and no target comparison (both are
`TODO` comments). Returns the Rust `Result` plus the post-call state. -/
def Blockchain.append_block (H : String → String)
    (sigV : PublicKeyBytes → String → SignatureBytes → Bool)
    (bc : Blockchain) (block : Block) : Except Error Unit × Blockchain :=
  if !block.verify H then (.error "Block has invalid hash", bc)
  else
    let is_genesis := bc.blocks.length == 0
    if block.transactions.length == 0 then
      (.error "Block has 0 transactions.", bc)
    else
      match executeAll H sigV block.transactions bc.accounts is_genesis with
      | .error e => (.error ("Error during tx execution: " ++ e), bc)
      | .ok accounts1 =>
          (.ok (), { bc with accounts := accounts1,
                             blocks := block :: bc.blocks })

/-- The linkage comparison of Rust `Blockchain::validate`: the body of
`if let Some(prev_block_hash) = &prev_block_hash \x7b if prev_block_hash !=
&block.hash.clone().unwrap() ... \x7d` — true exactly when the check fires.
The carried hash `none` skips the check; a stored hash of `none` would make
the source's `unwrap` panic, but that branch is unreachable because `verify`
has already guaranteed a stored hash (kept as `true`, an error, for
totality). -/
def linkCheck : Option Hash → Option Hash → Bool
  | some p1, some h1 => p1 != h1
  | some _, none => true
  | none, _ => false

/-- The loop body of Rust `Blockchain::validate`, iterating newest-to-oldest
with `block_num` counting down from the chain length and `prev_block_hash`
carrying the previously visited (newer) block's `prev_hash`. The linkage
check unwraps `block.hash`; that unwrap sits after the `verify` check, which
guarantees the stored hash is present, so the `none` branch is unreachable
(kept as an error for totality). -/
def validateLoop (H : String → String) (total : Nat) :
    List Block → Nat → Option Hash → Except Error Unit
  | [], _, _ => .ok ()
  | block :: rest, block_num, prev_block_hash =>
      let is_genesis := block_num == 1
      if !block.verify H then
        .error ("Block " ++ toString block_num ++ " has invalid hash")
      else if !is_genesis && block.prev_hash.isNone then
        .error ("Block " ++ toString block_num ++ " doesn't have prev_hash")
      else if is_genesis && block.prev_hash.isSome then
        .error "Genesis block shouldn't have prev_hash"
      else if block_num != total && linkCheck prev_block_hash block.hash then
        .error ("Block " ++ toString (block_num + 1) ++
          " prev_hash doesn't match Block " ++ toString block_num ++ " hash")
      else
        validateLoop H total rest (block_num - 1) block.prev_hash

/-- Rust `Blockchain::validate`: run the loop over the whole chain starting
from the newest block, `block_num = len`, no previous hash. -/
def Blockchain.validate (H : String → String) (bc : Blockchain) :
    Except Error Unit :=
  validateLoop H bc.blocks.length bc.blocks bc.blocks.length none

/-- Value of a hex digit, as accepted by Rust `from_str_radix(_, 16)`. -/
def hexDigitVal? (c : Char) : Option Nat :=
  if '0' ≤ c ∧ c ≤ '9' then some (c.toNat - '0'.toNat)
  else if 'a' ≤ c ∧ c ≤ 'f' then some (c.toNat - 'a'.toNat + 10)
  else if 'A' ≤ c ∧ c ≤ 'F' then some (c.toNat - 'A'.toNat + 10)
  else none

/-- Accumulating hex parser over a digit list. -/
def parseHexGo : List Char → Nat → Option Nat
  | [], acc => some acc
  | c :: rest, acc =>
      match hexDigitVal? c with
      | some d => parseHexGo rest (acc * 16 + d)
      | none => none

/-- Rust `i32::from_str_radix(s, 16)` on a digit-only string: `none` on an
empty string, a non-hex character, or a value above `i32::MAX` (all of which
make the source's `.unwrap()` panic). -/
def parseHexI32? (cs : List Char) : Option Int :=
  if cs.isEmpty then none
  else
    match parseHexGo cs 0 with
    | some n => if n ≤ 0x7fffffff then some (Int.ofNat n) else none
    | none => none

/-- The `while hash[..6].ends_with("0")` loop of `get_bits_from_hash`: keep
prepending `'0'` while the sixth character is `'0'`. The six-character slice
panics when fewer than six characters are present (`none`). When the list
starts with a non-zero character the loop runs at most five times, so fuel 6
is exact; an all-zero list never terminates in the source and exhausts the
fuel (`none`). -/
def padLoop (fuel : Nat) (cs : List Char) : Option (List Char) :=
  if cs.length < 6 then none
  else if cs.getD 5 ' ' = '0' then
    match fuel with
    | 0 => none
    | Nat.succ f => padLoop f ('0' :: cs)
  else some cs

/-- Rust `get_bits_from_hash` (`src/utils.rs`): scan for the first non-zero
hex character, drop everything before it, zero-pad until the sixth character
is non-zero, make the length even, and parse `exponent ++ coefficient` as a
hex `i32`, where `exponent` is `len / 2` in lowercase hex and `coefficient`
is the first six characters. `none` models the panics (string-slice out of
range, `from_str_radix` failure) and the all-zero non-termination. -/
def get_bits_from_hash (hash : Hash) : Option Int :=
  let cs := hash.data
  let a := (cs.findIdx? (fun c => c != '0')).getD 0
  let rest := cs.drop a
  match padLoop 6 rest with
  | none => none
  | some padded =>
      let padded2 := if padded.length % 2 != 0 then padded ++ ['0'] else padded
      let exponent := Nat.toDigits 16 (padded2.length / 2)
      let coefficient := padded2.take 6
      parseHexI32? (exponent ++ coefficient)

deriving instance DecidableEq for Except

/-
Concrete fixtures used by witnesses and counterexamples. `hpId` instantiates
the abstract digest with the identity on the encoded content (an injective
digest), `hConstF` with a constant 64-character hex digest; `sigT` is the
signature oracle that accepts everything.
-/

/-- Digest instantiation: the identity on the encoded content. -/
def hpId : String → String := fun s => s

/-- A 64-character all-`f` hex string, the shape of a maximal Blake2s hex
digest. -/
def f64str : String := String.mk (List.replicate 64 'f')

/-- Digest instantiation: constantly `f64str`. -/
def hConstF : String → String := fun _ => f64str

/-- Signature oracle that accepts every signature. -/
def sigT : PublicKeyBytes → String → SignatureBytes → Bool := fun _ _ _ => true

/-- A fixed 32-byte public key. -/
def pk0 : PublicKeyBytes := List.replicate 32 0

/-- Fixture: create-account transaction for `satoshi`. -/
def txCreateSatoshi : Transaction :=
  Transaction.new (.CreateAccount "satoshi" pk0) none

/-- Fixture: genesis mint of `100000000` to `satoshi`. -/
def txMintSatoshi : Transaction :=
  Transaction.new (.MintInitialSupply "satoshi" 100000000) none

/-- Fixture: create-account transaction for `alice`. -/
def txCreateAlice : Transaction :=
  Transaction.new (.CreateAccount "alice" pk0) none

/-- Fixture: the ledger of the spec scenario right before block 3: `satoshi`
holds the minted supply, `alice` and `bob` exist with zero balance. -/
def ledger3 : Ledger :=
  [("satoshi", { account_type := .User, balance := 100000000,
                 public_key := pk0 }),
   ("alice", { account_type := .User, balance := 0, public_key := pk0 }),
   ("bob", { account_type := .User, balance := 0, public_key := pk0 })]

/-- Fixture: signed transfer `satoshi → alice : 10000000`. -/
def txT1 : Transaction :=
  (Transaction.new (.Transfer "alice" 10000000) (some "satoshi")).set_sign
    (List.replicate 64 1)

/-- Fixture: signed transfer `satoshi → bob : 50000000`. -/
def txT2 : Transaction :=
  (Transaction.new (.Transfer "bob" 50000000) (some "satoshi")).set_sign
    (List.replicate 64 1)

/-- Fixture: signed transfer `bob → satoshi : 30000000`. -/
def txT3 : Transaction :=
  (Transaction.new (.Transfer "satoshi" 30000000) (some "bob")).set_sign
    (List.replicate 64 1)

/-
Ledger lookup/update lemmas shared by several proofs.
-/

/-- Updating one account leaves lookups of other ids unchanged. -/
theorem get_update_ne (l : Ledger) (id id' : AccountId) (f : Account → Account)
    (h : id ≠ id') :
    Ledger.get_account_by_id (Ledger.updateAccount l id' f) id =
      Ledger.get_account_by_id l id := by
  induction l with
  | nil => rfl
  | cons hd tl ih =>
      obtain ⟨k, a⟩ := hd
      by_cases hk : k = id'
      · subst hk
        simp [Ledger.updateAccount, Ledger.get_account_by_id, Ne.symm h]
      · by_cases hk2 : k = id
        · subst hk2
          simp [Ledger.updateAccount, Ledger.get_account_by_id, hk]
        · simp [Ledger.updateAccount, Ledger.get_account_by_id, hk, hk2, ih]

/-- Looking up the updated id sees the updated account. -/
theorem get_update_self (l : Ledger) (id : AccountId) (f : Account → Account) :
    Ledger.get_account_by_id (Ledger.updateAccount l id f) id =
      (Ledger.get_account_by_id l id).map f := by
  induction l with
  | nil => rfl
  | cons hd tl ih =>
      obtain ⟨k, a⟩ := hd
      by_cases hk : k = id
      · subst hk
        simp [Ledger.updateAccount, Ledger.get_account_by_id]
      · simp [Ledger.updateAccount, Ledger.get_account_by_id, hk, ih]

/-- C9: `get_bits_from_hash` is not total over hex hash strings: on a
64-character hash whose first non-zero digit is at index 59 (five characters
remain), and on the hash `"1"`, the six-character slice is out of range and
the function panics (`none` in the model) instead of returning a value, while
on a full 64-character hash it returns the compact bits value. -/
theorem c9_get_bits_from_hash_not_total :
    get_bits_from_hash
        (String.mk (List.replicate 59 '0' ++ ['1', '2', '3', '4', '5'])) =
      none ∧
    get_bits_from_hash "1" = none ∧
    (String.mk (List.replicate 59 '0' ++ ['1', '2', '3', '4', '5'])).length
      = 64 ∧
    get_bits_from_hash f64str = some 0x20ffffff := by
  refine ⟨by decide, by decide, by decide, by decide⟩

/-- C10: `CreateAccount` and `MintInitialSupply` execute without any
signature or sender-id verification: the result is the same for any digest
function, any signature oracle, and any attached sender id, nonce, timestamp
or signature, so an unsigned transaction can create an account or, in a
genesis block, mint supply. -/
theorem c10_create_and_mint_unauthenticated
    (H H' : String → String)
    (sigV sigV' : PublicKeyBytes → String → SignatureBytes → Bool)
    (st : Ledger) (g : Bool) (d : TransactionData)
    (n t n' t' : Nat) (f f' : Option AccountId)
    (s s' : Option SignatureBytes)
    (hd : (∃ id pk, d = .CreateAccount id pk) ∨
          (∃ to_ amount, d = .MintInitialSupply to_ amount)) :
    Transaction.execute H sigV ⟨n, t, f, d, s⟩ st g =
      Transaction.execute H' sigV' ⟨n', t', f', d, s'⟩ st g := by
  rcases hd with ⟨id, pk, rfl⟩ | ⟨to_, amount, rfl⟩ <;> rfl

/-- Witness for C10 at a concrete input: an unsigned, sender-less create
executes exactly like the same create carrying a sender id and a signature,
under a rejecting signature oracle. -/
theorem c10_witness :
    Transaction.execute hpId sigT
        ⟨0, 0, none, .CreateAccount "satoshi" pk0, none⟩ [] false =
      Transaction.execute hConstF (fun _ _ _ => false)
        ⟨5, 7, some "mallory", .CreateAccount "satoshi" pk0,
          some (List.replicate 64 9)⟩ [] false :=
  c10_create_and_mint_unauthenticated hpId hConstF sigT (fun _ _ _ => false)
    [] false (.CreateAccount "satoshi" pk0) 0 0 5 7 none (some "mallory")
    none (some (List.replicate 64 9)) (Or.inl ⟨"satoshi", pk0, rfl⟩)

/-- C7: `MintInitialSupply` is gated on the genesis flag: with `is_genesis`
false it fails with the not-genesis-mint error; with `is_genesis` true it
fails with the unknown-account error when `to` is absent, and otherwise
credits the `to` account's balance by `amount` (in 128-bit arithmetic; the
plain sum whenever it does not overflow). -/
theorem c7_mint_genesis_gate (H : String → String)
    (sigV : PublicKeyBytes → String → SignatureBytes → Bool)
    (st : Ledger) (to_ : AccountId) (amount n t : Nat)
    (f : Option AccountId) (s : Option SignatureBytes) :
    (Transaction.execute H sigV ⟨n, t, f, .MintInitialSupply to_ amount, s⟩
        st false = .error "Initial supply can be minted only in genesis block.") ∧
    (Ledger.get_account_by_id st to_ = none →
      Transaction.execute H sigV ⟨n, t, f, .MintInitialSupply to_ amount, s⟩
        st true = .error "Invalid account.") ∧
    (∀ acct, Ledger.get_account_by_id st to_ = some acct →
      Transaction.execute H sigV ⟨n, t, f, .MintInitialSupply to_ amount, s⟩
          st true =
        .ok (Ledger.updateAccount st to_
          (fun a => { a with balance := (a.balance + amount) % balanceMod })) ∧
      Ledger.get_account_by_id
          (Ledger.updateAccount st to_
            (fun a => { a with balance := (a.balance + amount) % balanceMod }))
          to_ =
        some { acct with balance := (acct.balance + amount) % balanceMod } ∧
      (acct.balance + amount < balanceMod →
        (acct.balance + amount) % balanceMod = acct.balance + amount)) := by
  refine ⟨rfl, ?_, ?_⟩
  · intro habs
    simp [Transaction.execute, habs]
  · intro acct hacct
    refine ⟨?_, ?_, fun hlt => Nat.mod_eq_of_lt hlt⟩
    · simp [Transaction.execute, hacct]
    · rw [get_update_self, hacct, Option.map_some']

/-- Witness for C7 at concrete inputs: the scenario mint fails outside
genesis, a mint to an absent account fails, and the genesis mint to `satoshi`
credits the balance. -/
theorem c7_witness :
    Transaction.execute hpId sigT
        ⟨0, 0, none, .MintInitialSupply "satoshi" 100000000, none⟩
        ledger3 false =
      .error "Initial supply can be minted only in genesis block." ∧
    Transaction.execute hpId sigT
        ⟨0, 0, none, .MintInitialSupply "nobody" 5, none⟩ [] true =
      .error "Invalid account." ∧
    Ledger.get_account_by_id
        (Ledger.updateAccount ledger3 "satoshi"
          (fun a => { a with balance := (a.balance + 100000000) % balanceMod }))
        "satoshi" =
      some { account_type := .User, balance := 200000000, public_key := pk0 } := by
  refine ⟨(c7_mint_genesis_gate hpId sigT ledger3 "satoshi" 100000000 0 0
      none none).1, ?_, ?_⟩
  · exact (c7_mint_genesis_gate hpId sigT [] "nobody" 5 0 0 none none).2.1 rfl
  · have h := ((c7_mint_genesis_gate hpId sigT ledger3 "satoshi" 100000000 0 0
      none none).2.2
        { account_type := .User, balance := 100000000, public_key := pk0 }
        rfl).2.1
    rw [h]
    decide

/-- C6: the sender-balance sufficiency check precedes signature
verification: whenever the sender's balance is below the amount the Transfer
fails with the insufficient-funds error, for every signature oracle and every
attached signature (including an absent one). -/
theorem c6_insufficient_funds_before_signature (H : String → String)
    (sigV : PublicKeyBytes → String → SignatureBytes → Bool)
    (st : Ledger) (from_ to_ : AccountId) (amount n t : Nat)
    (s : Option SignatureBytes) (g : Bool) (sender receiver : Account)
    (hne : from_ ≠ to_)
    (hs : Ledger.get_account_by_id st from_ = some sender)
    (hr : Ledger.get_account_by_id st to_ = some receiver)
    (hlt : sender.balance < amount) :
    Transaction.execute H sigV ⟨n, t, some from_, .Transfer to_ amount, s⟩
        st g = .error "Sender doesn't have enough currency." := by
  simp [Transaction.execute, hne, hs, hr, hlt]

/-- Witness for C6 at a concrete input: `satoshi` holds `100000000`, the
transfer asks for `200000000` and carries no signature at all; the reported
error is insufficient funds, not an invalid signature. -/
theorem c6_witness :
    ("satoshi" : AccountId) ≠ "alice" ∧
    Ledger.get_account_by_id ledger3 "satoshi" =
      some { account_type := .User, balance := 100000000, public_key := pk0 } ∧
    (100000000 : Nat) < 200000000 ∧
    Transaction.execute hpId sigT
        ⟨0, 0, some "satoshi", .Transfer "alice" 200000000, none⟩ ledger3
        false = .error "Sender doesn't have enough currency." := by
  refine ⟨by decide, by decide, by decide, ?_⟩
  exact c6_insufficient_funds_before_signature hpId sigT ledger3 "satoshi"
    "alice" 200000000 0 0 none false
    { account_type := .User, balance := 100000000, public_key := pk0 }
    { account_type := .User, balance := 0, public_key := pk0 }
    (by decide) rfl rfl (by decide)

/-- C5: a Transfer that passes every check (sender id present and distinct
from the receiver, both accounts present, sufficient balance, verifying
signature, non-overflowing receiver sum) succeeds, decreasing the sender's
balance by the amount and setting the receiver's balance to the checked sum;
the returned ledger is exactly the two writes applied to the input ledger
(both balances written, nothing else touched). -/
theorem c5_transfer_success (H : String → String)
    (sigV : PublicKeyBytes → String → SignatureBytes → Bool)
    (st : Ledger) (from_ to_ : AccountId) (amount n t : Nat)
    (s : Option SignatureBytes) (g : Bool) (sender receiver : Account)
    (hne : from_ ≠ to_)
    (hs : Ledger.get_account_by_id st from_ = some sender)
    (hr : Ledger.get_account_by_id st to_ = some receiver)
    (hbal : ¬ sender.balance < amount)
    (hsig : Transaction.verify H sigV
      ⟨n, t, some from_, .Transfer to_ amount, s⟩ sender = true)
    (hof : receiver.balance + amount < balanceMod) :
    Transaction.execute H sigV ⟨n, t, some from_, .Transfer to_ amount, s⟩
        st g =
      .ok (Ledger.updateAccount
        (Ledger.updateAccount st from_
          (fun a => { a with balance := a.balance - amount }))
        to_ (fun r => { r with balance := receiver.balance + amount })) ∧
    Ledger.get_account_by_id
        (Ledger.updateAccount
          (Ledger.updateAccount st from_
            (fun a => { a with balance := a.balance - amount }))
          to_ (fun r => { r with balance := receiver.balance + amount }))
        from_ =
      some { sender with balance := sender.balance - amount } ∧
    Ledger.get_account_by_id
        (Ledger.updateAccount
          (Ledger.updateAccount st from_
            (fun a => { a with balance := a.balance - amount }))
          to_ (fun r => { r with balance := receiver.balance + amount }))
        to_ =
      some { receiver with balance := receiver.balance + amount } := by
  refine ⟨?_, ?_, ?_⟩
  · simp only [Transaction.execute, hne, if_neg hne, hs, hr, if_neg hbal,
      hsig, Bool.not_true, Bool.false_eq_true, if_false, checked_add,
      if_pos hof]
    rw [get_update_ne st to_ from_ _ (Ne.symm hne), hr]
  · rw [get_update_ne _ from_ to_ _ hne, get_update_self, hs,
      Option.map_some']
  · rw [get_update_self, get_update_ne st to_ from_ _ (Ne.symm hne), hr,
      Option.map_some']

/-- Fixture: the scenario ledger after the first two transfers of block 3:
`satoshi` 40000000, `alice` 10000000, `bob` 50000000. -/
def ledger3b : Ledger :=
  [("satoshi", { account_type := .User, balance := 40000000,
                 public_key := pk0 }),
   ("alice", { account_type := .User, balance := 10000000,
               public_key := pk0 }),
   ("bob", { account_type := .User, balance := 50000000,
             public_key := pk0 })]

/-- Witness for C5: the spec scenario. The three signed transfers of block 3
leave `satoshi` with 70000000, `alice` with 10000000 and `bob` with
20000000; the third transfer is the theorem applied at a concrete input. -/
theorem c5_witness :
    executeAll hpId sigT [txT1, txT2, txT3] ledger3 false =
      .ok [("satoshi", { account_type := .User, balance := 70000000,
                         public_key := pk0 }),
           ("alice", { account_type := .User, balance := 10000000,
                       public_key := pk0 }),
           ("bob", { account_type := .User, balance := 20000000,
                     public_key := pk0 })] ∧
    Ledger.get_account_by_id
        (Ledger.updateAccount
          (Ledger.updateAccount ledger3b "bob"
            (fun a => { a with balance := a.balance - 30000000 }))
          "satoshi" (fun r => { r with balance := 40000000 + 30000000 }))
        "bob" =
      some { account_type := .User, balance := 20000000,
             public_key := pk0 } ∧
    Ledger.get_account_by_id
        (Ledger.updateAccount
          (Ledger.updateAccount ledger3b "bob"
            (fun a => { a with balance := a.balance - 30000000 }))
          "satoshi" (fun r => { r with balance := 40000000 + 30000000 }))
        "satoshi" =
      some { account_type := .User, balance := 70000000,
             public_key := pk0 } := by
  have h := c5_transfer_success hpId sigT ledger3b "bob" "satoshi"
    30000000 0 0 (some (List.replicate 64 1)) false
    { account_type := .User, balance := 50000000, public_key := pk0 }
    { account_type := .User, balance := 40000000, public_key := pk0 }
    (by decide) rfl rfl (by decide) rfl (by decide)
  exact ⟨by decide, h.2.1, h.2.2⟩

/-- C4 (amended): only the Transfer receiver addition is overflow-checked:
it fails with the amount-overflow error when the sum would exceed 128 bits,
while the `MintInitialSupply` credit is an unchecked 128-bit addition that
silently wraps and still reports success; the sender subtraction cannot
underflow because the sufficiency check precedes it. -/
theorem c4_overflow_discipline (H : String → String)
    (sigV : PublicKeyBytes → String → SignatureBytes → Bool)
    (st : Ledger) :
    (∀ (from_ to_ : AccountId) (amount n t : Nat)
        (s : Option SignatureBytes) (g : Bool) (sender receiver : Account),
      from_ ≠ to_ →
      Ledger.get_account_by_id st from_ = some sender →
      Ledger.get_account_by_id st to_ = some receiver →
      ¬ sender.balance < amount →
      Transaction.verify H sigV
        ⟨n, t, some from_, .Transfer to_ amount, s⟩ sender = true →
      balanceMod ≤ receiver.balance + amount →
      Transaction.execute H sigV ⟨n, t, some from_, .Transfer to_ amount, s⟩
        st g = .error "Transfer amount overflow.") ∧
    (∀ (to_ : AccountId) (amount n t : Nat) (f : Option AccountId)
        (s : Option SignatureBytes) (acct : Account),
      Ledger.get_account_by_id st to_ = some acct →
      balanceMod ≤ acct.balance + amount →
      Transaction.execute H sigV ⟨n, t, f, .MintInitialSupply to_ amount, s⟩
          st true =
        .ok (Ledger.updateAccount st to_
          (fun a => { a with balance := (a.balance + amount) % balanceMod })) ∧
      (acct.balance + amount) % balanceMod ≠ acct.balance + amount) := by
  constructor
  · intro from_ to_ amount n t s g sender receiver hne hs hr hbal hsig hof
    have hc : checked_add receiver.balance amount = none := by
      unfold checked_add
      rw [if_neg (by omega)]
    simp only [Transaction.execute, hne, if_neg hne, hs, hr, if_neg hbal,
      hsig, Bool.not_true, Bool.false_eq_true, if_false, hc]
  · intro to_ amount n t f s acct hacct hof
    exact ⟨by simp [Transaction.execute, hacct],
      Nat.ne_of_lt (lt_of_lt_of_le (Nat.mod_lt _ (by decide)) hof)⟩

/-- Counterexample for C4 as stated: a genesis mint of 5 onto a balance of
`2 ^ 128 - 1` overflows, yet execution reports success and the balance is
silently wrapped to 4 instead of any error being returned. -/
theorem c4_counterexample :
    Transaction.execute hpId sigT
        ⟨0, 0, none, .MintInitialSupply "a" 5, none⟩
        [("a", { account_type := .User, balance := 2 ^ 128 - 1,
                 public_key := pk0 })] true =
      .ok [("a", { account_type := .User, balance := 4,
                   public_key := pk0 })] ∧
    balanceMod ≤ (2 ^ 128 - 1) + 5 := by
  exact ⟨by decide, by decide⟩

/-- Witness for C4: the amended theorem applied at concrete inputs — a
transfer whose receiver sum overflows fails with the overflow error, and a
genesis mint that overflows succeeds with a wrapped balance. -/
theorem c4_witness :
    Transaction.execute hpId sigT
        ⟨0, 0, some "rich", .Transfer "full" 5, some (List.replicate 64 1)⟩
        [("rich", { account_type := .User, balance := 10, public_key := pk0 }),
         ("full", { account_type := .User, balance := 2 ^ 128 - 1,
                    public_key := pk0 })] false =
      .error "Transfer amount overflow." ∧
    Transaction.execute hpId sigT
        ⟨0, 0, none, .MintInitialSupply "full" 5, none⟩
        [("full", { account_type := .User, balance := 2 ^ 128 - 1,
                    public_key := pk0 })] true =
      .ok (Ledger.updateAccount
        [("full", { account_type := .User, balance := 2 ^ 128 - 1,
                    public_key := pk0 })] "full"
        (fun a => { a with balance := (a.balance + 5) % balanceMod })) := by
  constructor
  · exact (c4_overflow_discipline hpId sigT _).1 "rich" "full" 5 0 0
      (some (List.replicate 64 1)) false
      { account_type := .User, balance := 10, public_key := pk0 }
      { account_type := .User, balance := 2 ^ 128 - 1, public_key := pk0 }
      (by decide) rfl rfl (by decide) rfl (by decide)
  · exact ((c4_overflow_discipline hpId sigT
      [("full", { account_type := .User, balance := 2 ^ 128 - 1,
                  public_key := pk0 })]).2 "full" 5 0 0 none none
      { account_type := .User, balance := 2 ^ 128 - 1, public_key := pk0 }
      rfl (by decide)).1

/-- C2: `append_block` is atomic: whenever executing the block's
transactions against the pre-call ledger hits a failure, the call returns the
wrapped transaction error together with a state identical to the pre-call
state — the ledger is restored from the snapshot and the block is not
appended. -/
theorem c2_append_block_rollback (H : String → String)
    (sigV : PublicKeyBytes → String → SignatureBytes → Bool)
    (bc : Blockchain) (b : Block) (e : Error)
    (hv : b.verify H = true)
    (hexec : executeAll H sigV b.transactions bc.accounts
      (bc.blocks.length == 0) = .error e) :
    Blockchain.append_block H sigV bc b =
      (.error ("Error during tx execution: " ++ e), bc) := by
  have hne : (b.transactions.length == 0) = false := by
    rcases htx : b.transactions with _ | ⟨tx, rest⟩
    · rw [htx] at hexec
      exact absurd hexec (by simp [executeAll])
    · rfl
  unfold Blockchain.append_block
  rw [hv]
  simp only [Bool.not_true, Bool.false_eq_true, if_false, hne, hexec]

/-- Fixture: the genesis block of the identity-digest chain: create `satoshi`
then mint the initial supply. -/
def gBlock : Block :=
  Block.add_transaction hpId
    (Block.add_transaction hpId (Block.new hpId none 0) txCreateSatoshi)
    txMintSatoshi

/-- Fixture: the chain after appending `gBlock` to the fresh blockchain. -/
def bc1 : Blockchain :=
  (Blockchain.append_block hpId sigT Blockchain.new gBlock).2

/-- Fixture: a block with a duplicate `CreateAccount` pair, whose second
transaction must fail. -/
def dupBlock : Block :=
  Block.add_transaction hpId
    (Block.add_transaction hpId
      (Block.new hpId (Blockchain.get_last_block_hash hpId bc1) 0)
      (Transaction.new (.CreateAccount "bob" pk0) none))
    (Transaction.new (.CreateAccount "bob" pk0) none)

set_option maxRecDepth 100000 in
/-- Witness for C2 at a concrete input: the duplicate-create block fails its
second transaction and `append_block` returns the wrapped error with the
state exactly as before the call. -/
theorem c2_witness :
    dupBlock.verify hpId = true ∧
    executeAll hpId sigT dupBlock.transactions bc1.accounts
      (bc1.blocks.length == 0) = .error "AccountId already exist: bob" ∧
    Blockchain.append_block hpId sigT bc1 dupBlock =
      (.error ("Error during tx execution: " ++ "AccountId already exist: bob"),
        bc1) := by
  refine ⟨by decide, by decide, ?_⟩
  exact c2_append_block_rollback hpId sigT bc1 dupBlock
    "AccountId already exist: bob" (by decide) (by decide)

/-- C1 (amended): `append_block` performs no difficulty retargeting and no
proof-of-work comparison (both are `TODO` comments in the source): every
block that passes hash verification, is non-empty, and whose transactions
all execute is appended with success, with no condition relating the block
hash's compact value to any target, for genesis and non-genesis blocks
alike. -/
theorem c1_append_block_no_pow_gate (H : String → String)
    (sigV : PublicKeyBytes → String → SignatureBytes → Bool)
    (bc : Blockchain) (b : Block) (acc1 : Ledger)
    (hv : b.verify H = true)
    (hne : b.transactions ≠ [])
    (hexec : executeAll H sigV b.transactions bc.accounts
      (bc.blocks.length == 0) = .ok acc1) :
    Blockchain.append_block H sigV bc b =
      (.ok (), { bc with accounts := acc1, blocks := b :: bc.blocks }) := by
  have hlen : (b.transactions.length == 0) = false := by
    rcases htx : b.transactions with _ | ⟨tx, rest⟩
    · exact absurd htx hne
    · rfl
  unfold Blockchain.append_block
  rw [hv]
  simp only [Bool.not_true, Bool.false_eq_true, if_false, hlen, hexec]

/-- Fixture: genesis block under the constant digest `hConstF`. -/
def cGBlock : Block :=
  Block.add_transaction hConstF (Block.new hConstF none 0) txCreateSatoshi

/-- Fixture: the constant-digest chain after its genesis block. -/
def cBc1 : Blockchain :=
  (Blockchain.append_block hConstF sigT Blockchain.new cGBlock).2

/-- Fixture: a second (non-genesis) block under the constant digest; its
hash is the all-`f` string, whose compact value is the largest possible. -/
def cBlock2 : Block :=
  Block.add_transaction hConstF
    (Block.new hConstF (Blockchain.get_last_block_hash hConstF cBc1) 0)
    txCreateAlice

/-- Fixture: the account ledger after `cBlock2` executes on `cBc1`. -/
def cAcc2 : Ledger :=
  [("satoshi", { account_type := .User, balance := 0, public_key := pk0 }),
   ("alice", { account_type := .User, balance := 0, public_key := pk0 })]

/-- Counterexample for C1 as stated: a non-genesis block whose hash's
compact value `0x20ffffff` is above `MAX_TARGET` (hence above
`min(MAX_TARGET, t)` for every target `t`) is appended with success instead
of being rejected with a hash-above-target error. -/
theorem c1_counterexample :
    cBc1.blocks.length = 1 ∧
    get_bits_from_hash (Block.computeHash hConstF cBlock2) =
      some 0x20ffffff ∧
    MAX_TARGET < 0x20ffffff ∧
    (Blockchain.append_block hConstF sigT cBc1 cBlock2).1 = .ok () ∧
    (Blockchain.append_block hConstF sigT cBc1 cBlock2).2.blocks =
      cBlock2 :: cBc1.blocks := by
  exact ⟨by decide, by decide, by decide, by decide, by decide⟩

/-- Witness for C1's amended theorem at a concrete input: the same
above-target block satisfies the three hypotheses and is appended. -/
theorem c1_witness :
    cBlock2.verify hConstF = true ∧
    cBlock2.transactions ≠ [] ∧
    executeAll hConstF sigT cBlock2.transactions cBc1.accounts
      (cBc1.blocks.length == 0) = .ok cAcc2 ∧
    Blockchain.append_block hConstF sigT cBc1 cBlock2 =
      (.ok (), { cBc1 with accounts := cAcc2,
                           blocks := cBlock2 :: cBc1.blocks }) := by
  refine ⟨by decide, by decide, by decide, ?_⟩
  exact c1_append_block_no_pow_gate hConstF sigT cBc1 cBlock2 cAcc2
    (by decide) (by decide) (by decide)

/-- The computed content hash does not read the stored `hash` field, so
storing a hash does not change the recomputed one. -/
theorem computeHash_update_hash (H : String → String) (b : Block) :
    Block.computeHash H (Block.update_hash H b) = Block.computeHash H b := rfl

/-- Unfolding of `Block.verify` as a comparison with the stored option. -/
theorem Block.verify_eq (H : String → String) (b : Block) :
    Block.verify H b = (b.hash == some (Block.computeHash H b)) := by
  rcases b with ⟨n, t, h, p, txs⟩
  cases h <;> rfl

/-- A block whose stored hash was just recomputed verifies. -/
theorem verify_update_hash (H : String → String) (b : Block) :
    Block.verify H (Block.update_hash H b) = true := by
  rw [Block.verify_eq, computeHash_update_hash]
  exact beq_self_eq_true _

/-- C8: `verify` is true immediately after construction (`new`) and after
every mutation through `set_nonce` or `add_transaction`, because those
mutators recompute the stored self-hash; and replacing a block's transaction
payload in place (leaving the stored hash untouched) makes `verify` false
whenever the digest distinguishes the old and new content streams. -/
theorem c8_block_verify_tamper_evidence (H : String → String) :
    (∀ (prev : Option Hash) (ts : Nat),
      Block.verify H (Block.new H prev ts) = true) ∧
    (∀ (b : Block) (n : Nat),
      Block.verify H (Block.set_nonce H b n) = true) ∧
    (∀ (b : Block) (tx : Transaction),
      Block.verify H (Block.add_transaction H b tx) = true) ∧
    (∀ (b : Block) (txs : List Transaction),
      b.verify H = true →
      H (Block.contentString H { b with transactions := txs }) ≠
        H (Block.contentString H b) →
      Block.verify H { b with transactions := txs } = false) := by
  refine ⟨fun prev ts => verify_update_hash H _,
    fun b n => verify_update_hash H _,
    fun b tx => verify_update_hash H _, ?_⟩
  intro b txs hv hne
  rw [Block.verify_eq] at hv ⊢
  have hb : b.hash = some (Block.computeHash H b) := eq_of_beq hv
  rw [show ({ b with transactions := txs } : Block).hash = b.hash from rfl,
    hb, beq_eq_false_iff_ne]
  intro heq
  exact hne (Option.some.inj heq).symm

set_option maxRecDepth 100000 in
/-- Witness for C8's tamper conjunct at a concrete input: changing the
amount inside the committed create/mint genesis block's payload flips
`verify` to false under the injective identity digest. -/
theorem c8_witness :
    gBlock.verify hpId = true ∧
    hpId (Block.contentString hpId
        { gBlock with transactions :=
            [txCreateSatoshi,
             Transaction.new (.MintInitialSupply "satoshi" 100) none] }) ≠
      hpId (Block.contentString hpId gBlock) ∧
    Block.verify hpId
        { gBlock with transactions :=
            [txCreateSatoshi,
             Transaction.new (.MintInitialSupply "satoshi" 100) none] } =
      false := by
  refine ⟨by decide, by decide, ?_⟩
  exact (c8_block_verify_tamper_evidence hpId).2.2.2 gBlock
    [txCreateSatoshi, Transaction.new (.MintInitialSupply "satoshi" 100) none]
    (by decide) (by decide)

/-- Well-formed chain contents, newest block first: every block verifies,
the oldest (genesis) block has no `prev_hash`, and every other block's
`prev_hash` equals the stored hash of the block right before it. This is the
linkage `validate` audits; `append_block` itself never checks `prev_hash`. -/
def chainOk (H : String → String) : List Block → Bool
  | [] => true
  | b :: rest =>
      b.verify H &&
      (match rest with
       | [] => b.prev_hash.isNone
       | b2 :: _ => b.prev_hash == b2.hash) &&
      chainOk H rest

/-- The linkage check of the validation loop is false whenever the carried
hash is `none` or equals the stored hash it is compared against. -/
theorem linkCheck_false (p bh : Option Hash) (h : p = none ∨ p = bh) :
    linkCheck p bh = false := by
  rcases h with rfl | rfl
  · rfl
  · cases p with
    | none => rfl
    | some h1 => exact bne_self_eq_false h1

/-- The head of a well-formed chain verifies. -/
theorem chainOk_head_verify (H : String → String) (b : Block) :
    ∀ rest, chainOk H (b :: rest) = true → Block.verify H b = true := by
  intro rest h
  cases rest with
  | nil =>
      have h1 : (Block.verify H b && b.prev_hash.isNone &&
          chainOk H []) = true := h
      exact ((Bool.and_eq_true _ _).mp ((Bool.and_eq_true _ _).mp h1).1).1
  | cons b2 r =>
      have h1 : (Block.verify H b && (b.prev_hash == b2.hash) &&
          chainOk H (b2 :: r)) = true := h
      exact ((Bool.and_eq_true _ _).mp ((Bool.and_eq_true _ _).mp h1).1).1

/-- One successful step of the validation loop: when the head block
verifies and the three remaining checks are false, the loop proceeds to the
tail with the decremented counter and the head's `prev_hash`. -/
theorem validateLoop_cons (H : String → String) (total block_num : Nat)
    (b : Block) (rest : List Block) (p : Option Hash)
    (hv : b.verify H = true)
    (h2 : (!(block_num == 1) && b.prev_hash.isNone) = false)
    (h3 : ((block_num == 1) && b.prev_hash.isSome) = false)
    (h4 : linkCheck p b.hash = false) :
    validateLoop H total (b :: rest) block_num p =
      validateLoop H total rest (block_num - 1) b.prev_hash := by
  simp only [validateLoop, hv, Bool.not_true, Bool.false_eq_true, if_false,
    h2, h3, h4, Bool.and_false]

/-- The validation loop succeeds on any well-formed tail, provided the
carried `prev_block_hash` is either `none` or the head's stored hash (as it
is on the initial call and after every step). -/
theorem validateLoop_ok (H : String → String) (total : Nat) :
    ∀ (l : List Block) (p : Option Hash),
      chainOk H l = true →
      (∀ b, l.head? = some b → p = none ∨ p = b.hash) →
      validateLoop H total l l.length p = .ok () := by
  intro l
  induction l with
  | nil => intro p _ _; rfl
  | cons b rest ih =>
      intro p hok hlink
      have h4 := linkCheck_false p b.hash (hlink b rfl)
      cases rest with
      | nil =>
          have hok1 : (Block.verify H b &&
              b.prev_hash.isNone && chainOk H []) = true := hok
          have hv : Block.verify H b = true :=
            ((Bool.and_eq_true _ _).mp
              ((Bool.and_eq_true _ _).mp hok1).1).1
          have hnone : b.prev_hash.isNone = true :=
            ((Bool.and_eq_true _ _).mp
              ((Bool.and_eq_true _ _).mp hok1).1).2
          have hpn : b.prev_hash = none := Option.isNone_iff_eq_none.mp hnone
          show validateLoop H total [b] 1 p = .ok ()
          rw [validateLoop_cons H total 1 b [] p hv (by rw [hpn]; rfl)
            (by rw [hpn]; rfl) h4]
          rfl
      | cons b2 rest2 =>
          have hok1 : (Block.verify H b &&
              (b.prev_hash == b2.hash) && chainOk H (b2 :: rest2)) = true :=
            hok
          have hv : Block.verify H b = true :=
            ((Bool.and_eq_true _ _).mp
              ((Bool.and_eq_true _ _).mp hok1).1).1
          have hlk : (b.prev_hash == b2.hash) = true :=
            ((Bool.and_eq_true _ _).mp
              ((Bool.and_eq_true _ _).mp hok1).1).2
          have hrest : chainOk H (b2 :: rest2) = true :=
            ((Bool.and_eq_true _ _).mp hok1).2
          have hbeq : b.prev_hash = b2.hash := eq_of_beq hlk
          have hb2v : Block.verify H b2 = true :=
            chainOk_head_verify H b2 rest2 hrest
          have hb2h : b2.hash = some (Block.computeHash H b2) :=
            eq_of_beq ((Block.verify_eq H b2) ▸ hb2v)
          show validateLoop H total (b :: b2 :: rest2)
            ((b2 :: rest2).length + 1) p = .ok ()
          rw [validateLoop_cons H total ((b2 :: rest2).length + 1) b
            (b2 :: rest2) p hv (by rw [hbeq, hb2h]; rfl) (by rfl) h4]
          have hlink2 : ∀ b3, (b2 :: rest2).head? = some b3 →
              b.prev_hash = none ∨ b.prev_hash = b3.hash := by
            intro b3 hb3
            refine Or.inr ?_
            rw [hbeq, Option.some.inj hb3]
          exact ih b.prev_hash hrest hlink2

/-- If the validation loop succeeds, every visited block verifies. -/
theorem validateLoop_all_verify (H : String → String) (total : Nat) :
    ∀ (l : List Block) (n : Nat) (p : Option Hash),
      validateLoop H total l n p = .ok () →
      ∀ b ∈ l, b.verify H = true := by
  intro l
  induction l with
  | nil => intro n p _ b hb; cases hb
  | cons hd rest ih =>
      intro n p hok b hb
      simp only [validateLoop] at hok
      split_ifs at hok with h1 h2 h3 h4
      have hv : hd.verify H = true := by
        rcases hh : hd.verify H
        · exact absurd (by rw [hh]; rfl) h1
        · rfl
      rcases List.mem_cons.mp hb with rfl | hmem
      · exact hv
      · exact ih (n - 1) hd.prev_hash hok b hmem

/-- C3 (amended): `validate` succeeds exactly on well-linked chains — it
returns success whenever every block verifies, the genesis block has no
`prev_hash`, and each later block's `prev_hash` equals the hash of the block
immediately before it; and whenever `validate` succeeds every committed
block still verifies, so any in-place payload mutation that changes a
block's content hash makes `validate` fail. (`append_block` itself never
inspects `prev_hash`, so a chain built solely through successful
`append_block` calls need not satisfy this — see the counterexample.) -/
theorem c3_validate_audit (H : String → String) (bc : Blockchain) :
    (chainOk H bc.blocks = true → bc.validate H = .ok ()) ∧
    (bc.validate H = .ok () → ∀ b ∈ bc.blocks, b.verify H = true) := by
  constructor
  · intro hok
    exact validateLoop_ok H bc.blocks.length bc.blocks none hok
      (fun b _ => Or.inl rfl)
  · intro hok
    exact validateLoop_all_verify H bc.blocks.length bc.blocks
      bc.blocks.length none hok

/-- Fixture: a genesis block carrying a junk `prev_hash`. -/
def c3BadBlock : Block :=
  Block.add_transaction hpId (Block.new hpId (some "junk") 0) txCreateSatoshi

set_option maxRecDepth 400000 in
/-- Counterexample for C3 as stated: `append_block` admits a genesis block
whose `prev_hash` is the junk string `"junk"` (it never checks `prev_hash`),
and `validate` then fails on the very chain that was built solely through
successful `append_block` calls. -/
theorem c3_counterexample :
    (Blockchain.append_block hpId sigT Blockchain.new c3BadBlock).1 =
      .ok () ∧
    Blockchain.validate hpId
        (Blockchain.append_block hpId sigT Blockchain.new c3BadBlock).2 =
      .error "Genesis block shouldn't have prev_hash" := by
  exact ⟨by decide, by decide⟩

/-- Fixture: a properly linked second block creating `alice`. -/
def aliceBlock : Block :=
  Block.add_transaction hpId
    (Block.new hpId (Blockchain.get_last_block_hash hpId bc1) 0)
    txCreateAlice

/-- Fixture: the identity-digest chain after its two properly linked
blocks. -/
def bc2 : Blockchain :=
  (Blockchain.append_block hpId sigT bc1 aliceBlock).2

set_option maxRecDepth 400000 in
/-- Witness for C3's amended theorem at a concrete input: the two-block
properly linked chain is well formed and validates, and the success of
`validate` yields that the committed genesis block still verifies. -/
theorem c3_witness :
    chainOk hpId bc2.blocks = true ∧
    Blockchain.validate hpId bc2 = .ok () ∧
    gBlock.verify hpId = true := by
  have hok : chainOk hpId bc2.blocks = true := by decide
  have hval := (c3_validate_audit hpId bc2).1 hok
  exact ⟨hok, hval,
    (c3_validate_audit hpId bc2).2 hval gBlock (by decide)⟩

end Workshop
